import Mathlib

/-!
# psqlx: the extension interface (`psqlx.h`) and the format-attribute defines (`wrapper.h`)

The repository's C side consists of two headers.  `wrapper.h` (lines 1-11) defines
three preprocessor names, two of them under `#if defined(__GNUC__)`.  `psqlx.h`
declares the two entry points `has_command_ext` and `exec_command_ext`.

* The defines are embedded as data (`wrapper_h`), read by an evaluator of the
  directives over the defines already in force, and expanded by a rescanning expander
  with hide sets.
* The two prototypes are embedded as data (`psqlx_h`), constructor by constructor
  from the declarators of the header.
-/

namespace Psqlx

/-! ## wrapper.h, lines 1-11 -/

/-- The C type expressions that occur in the declarators of `psqlx.h`.  A typedef
name and an enumeration tag are kept as written: their declarations belong to the
host's headers (`settings.h` and what it includes). -/
inductive CType where
  | int
  | bool
  | char
  | const (t : CType)
  | ptr (t : CType)
  | typedefName (n : String)
  | enumTag (n : String)
  deriving DecidableEq, Repr

/-- One parameter declaration. -/
structure Param where
  type : CType
  name : String
  deriving DecidableEq, Repr

/-- One function declaration: name, return type, parameters in declaration order. -/
structure Prototype where
  name : String
  ret : CType
  params : List Param
  deriving DecidableEq, Repr

/-- Line 6: `int has_command_ext(const char* cmd);` -/
def has_command_ext_decl : Prototype :=
  { name := "has_command_ext"
    ret := CType.int
    params := [⟨CType.ptr (CType.const CType.char), "cmd"⟩] }

/-- Lines 7-14: `enum _backslashResult exec_command_ext(const char *cmd,
PsqlScanState scan_state, bool active_branch, PQExpBuffer query_buf,
PQExpBuffer previous_buf, PsqlSettings pset);` -/
def exec_command_ext_decl : Prototype :=
  { name := "exec_command_ext"
    ret := CType.enumTag "_backslashResult"
    params :=
      [ ⟨CType.ptr (CType.const CType.char), "cmd"⟩,
        ⟨CType.typedefName "PsqlScanState", "scan_state"⟩,
        ⟨CType.bool, "active_branch"⟩,
        ⟨CType.typedefName "PQExpBuffer", "query_buf"⟩,
        ⟨CType.typedefName "PQExpBuffer", "previous_buf"⟩,
        ⟨CType.typedefName "PsqlSettings", "pset"⟩ ] }

/-- The declarations of `psqlx.h`, in file order. -/
def psqlx_h : List Prototype := [has_command_ext_decl, exec_command_ext_decl]

/-- The declaration of a name in `psqlx.h`. -/
def findPrototype (name : String) : Option Prototype :=
  psqlx_h.find? (fun p => p.name == name)

/-- The host objects the dispatcher is handed: the scan state, the query buffer under
construction, the previous query buffer and the settings.  Their types are the host's
(`PsqlScanState`, `PQExpBuffer`, `PsqlSettings`) and stay abstract. -/
structure HostState (PsqlScanState PQExpBuffer PsqlSettings : Type) where
  scan_state : PsqlScanState
  query_buf : PQExpBuffer
  previous_buf : PQExpBuffer
  pset : PsqlSettings

/-- The Lean-side type of a body for the declaration of `exec_command_ext`: the six
declared parameters in the declared order; the value is the host objects as the call
leaves them together with the returned value of `enum _backslashResult`.  The
enumeration is the host's (its enumerators are declared in the host's `command.h`) and
is the type parameter `backslashResult`. -/
abbrev ExecCommandExt (PsqlScanState PQExpBuffer PsqlSettings backslashResult : Type) :=
  String → PsqlScanState → Bool → PQExpBuffer → PQExpBuffer → PsqlSettings →
    HostState PsqlScanState PQExpBuffer PsqlSettings × backslashResult

/-- Modelled from the spec: an extension module behind `psqlx.h`, that is the bodies of
`has_command_ext` and `exec_command_ext`, which the header only declares.  The
predicate is an arbitrary function of its token alone, returned as `int` (section 4.1
of the spec: no side effects, a function of the token); the dispatcher is an
arbitrary body of the declared type (section 4.2: its effect is unspecified). -/
structure Extension (PsqlScanState PQExpBuffer PsqlSettings backslashResult : Type) where
  has_command_ext : String → Int
  exec_command_ext : ExecCommandExt PsqlScanState PQExpBuffer PsqlSettings backslashResult

/-- What the host's command loop does that the extension can observe: a question to
the predicate with its answer, and a call of the dispatcher with its token. -/
inductive Event where
  | asked (cmd : String) (answer : Int)
  | dispatched (cmd : String) (active_branch : Bool)
  deriving DecidableEq, Repr

/-- Modelled from the spec: the parts of the host the command loop needs and the
fragment does not define: the host's handling of its own commands, the flag telling
whether the enclosing conditional branch is active, and the test for a result that ends
the loop ("terminate"). -/
structure Host (PsqlScanState PQExpBuffer PsqlSettings backslashResult : Type) where
  builtin : String → HostState PsqlScanState PQExpBuffer PsqlSettings →
    HostState PsqlScanState PQExpBuffer PsqlSettings × backslashResult
  active_branch : HostState PsqlScanState PQExpBuffer PsqlSettings → Bool
  terminates : backslashResult → Bool

section HostLoop

variable {PsqlScanState PQExpBuffer PsqlSettings backslashResult : Type}

/-- Modelled from the spec: one step of the host's command loop, section 2:
"host program → predicate check → dispatcher call → result code consumed by host".
A token the predicate answers with a non-zero value goes to the dispatcher together
with the host's objects; any other token is the host's own. -/
def host_step (H : Host PsqlScanState PQExpBuffer PsqlSettings backslashResult)
    (E : Extension PsqlScanState PQExpBuffer PsqlSettings backslashResult)
    (cmd : String) (h : HostState PsqlScanState PQExpBuffer PsqlSettings) :
    HostState PsqlScanState PQExpBuffer PsqlSettings × backslashResult × List Event :=
  let answer := E.has_command_ext cmd
  if answer ≠ 0 then
    let active := H.active_branch h
    let out := E.exec_command_ext cmd h.scan_state active h.query_buf h.previous_buf h.pset
    (out.1, out.2, [Event.asked cmd answer, Event.dispatched cmd active])
  else
    let out := H.builtin cmd h
    (out.1, out.2, [Event.asked cmd answer])

/-- Modelled from the spec: the host's command loop over the command tokens it reads,
one step per token, until the input ends or a result ends the loop.  The value is the
trace of what the extension saw. -/
def host_loop (H : Host PsqlScanState PQExpBuffer PsqlSettings backslashResult)
    (E : Extension PsqlScanState PQExpBuffer PsqlSettings backslashResult) :
    List String → HostState PsqlScanState PQExpBuffer PsqlSettings → List Event
  | [], _ => []
  | cmd :: rest, h =>
      let step := host_step H E cmd h
      if H.terminates step.2.1 then step.2.2
      else step.2.2 ++ host_loop H E rest step.1

end HostLoop

/-- A sample extension over string buffers: it claims the one token `x`, appends the
token to the query buffer when the branch is active, and returns 0. -/
def sampleExtension : Extension String String Unit Nat where
  has_command_ext := fun cmd => if cmd = "x" then 1 else 0
  exec_command_ext := fun cmd scan active query previous pset =>
    (⟨scan, if active then query ++ cmd else query, previous, pset⟩, 0)

/-- A sample host over string buffers: `q` yields the result 1, which ends the loop;
every other token of its own leaves the state as it is and yields 0. -/
def sampleHost : Host String String Unit Nat where
  builtin := fun cmd h => (h, if cmd = "q" then 1 else 0)
  active_branch := fun _ => true
  terminates := fun r => r == 1

/-! ## Lemmas on the expander -/

/-- Every dispatcher call a step of the loop records follows a non-zero answer of the
predicate for the same token. -/
theorem host_step_dispatched {S B P R : Type} (H : Host S B P R) (E : Extension S B P R)
    (cmd : String) (h : HostState S B P) (c : String) (b : Bool)
    (hmem : Event.dispatched c b ∈ (host_step H E cmd h).2.2) :
    E.has_command_ext c ≠ 0 := by
  unfold host_step at hmem
  by_cases hz : E.has_command_ext cmd = 0
  · simp [hz] at hmem
  · simp [hz] at hmem
    rcases hmem with ⟨rfl, _⟩
    exact hz

/-- Every dispatcher call in a trace of the loop follows a non-zero answer of the
predicate for the same token. -/
theorem host_loop_dispatched {S B P R : Type} (H : Host S B P R) (E : Extension S B P R)
    (cmds : List String) :
    ∀ (h : HostState S B P) (c : String) (b : Bool),
      Event.dispatched c b ∈ host_loop H E cmds h → E.has_command_ext c ≠ 0 := by
  induction cmds with
  | nil => intro h c b hmem; simp [host_loop] at hmem
  | cons cmd rest ih =>
    intro h c b hmem
    simp only [host_loop] at hmem
    split at hmem
    · exact host_step_dispatched H E cmd h c b hmem
    · rcases List.mem_append.mp hmem with hstep | hrest
      · exact host_step_dispatched H E cmd h c b hstep
      · exact ih _ c b hrest

/-! ## The claims -/

/-- C6, as amended: the declared interface.  `psqlx.h` declares `has_command_ext` and
`exec_command_ext` and nothing else.  `has_command_ext` has exactly one parameter, the
command token `const char *cmd`, and is declared to return `int`, not `bool`.
`exec_command_ext` has exactly six parameters, in the order command token, scan state,
active-branch `bool`, query buffer, previous-query buffer, settings, and returns
`enum _backslashResult`. -/
theorem psqlx_h_interface_shape :
    psqlx_h.map Prototype.name = ["has_command_ext", "exec_command_ext"] ∧
    findPrototype "has_command_ext" = some has_command_ext_decl ∧
    findPrototype "exec_command_ext" = some exec_command_ext_decl ∧
    has_command_ext_decl.params.length = 1 ∧
    has_command_ext_decl.params = [⟨CType.ptr (CType.const CType.char), "cmd"⟩] ∧
    has_command_ext_decl.ret = CType.int ∧
    exec_command_ext_decl.params.length = 6 ∧
    exec_command_ext_decl.params.map Param.name =
      ["cmd", "scan_state", "active_branch", "query_buf", "previous_buf", "pset"] ∧
    exec_command_ext_decl.params.map Param.type =
      [ CType.ptr (CType.const CType.char), CType.typedefName "PsqlScanState", CType.bool,
        CType.typedefName "PQExpBuffer", CType.typedefName "PQExpBuffer",
        CType.typedefName "PsqlSettings" ] ∧
    exec_command_ext_decl.ret = CType.enumTag "_backslashResult" := by
  refine ⟨rfl, ?_, ?_, rfl, rfl, rfl, rfl, rfl, rfl, rfl⟩ <;> decide

/-- Counterexample for C6 as stated: the declaration of `has_command_ext` does not have
one parameter and the return type `bool`; its declared return type is `int`, while the
same header declares `active_branch` as `bool`. -/
theorem psqlx_h_interface_shape_counterexample :
    ¬ (has_command_ext_decl.params.length = 1 ∧ has_command_ext_decl.ret = CType.bool) ∧
    has_command_ext_decl.ret = CType.int ∧
    (exec_command_ext_decl.params.map Param.type).count CType.bool = 1 := by
  decide

/-- C7: in every run of the host's command loop, over any input and from any host
state, the dispatcher is never called with a token the predicate does not claim: when
`has_command_ext cmd` is 0, no event of the trace is a call of `exec_command_ext` with
`cmd`. -/
theorem host_loop_never_dispatches_unclaimed {S B P R : Type} (H : Host S B P R)
    (E : Extension S B P R) (cmds : List String) (h : HostState S B P) (cmd : String)
    (hunclaimed : E.has_command_ext cmd = 0) :
    ∀ active_branch : Bool, Event.dispatched cmd active_branch ∉ host_loop H E cmds h := by
  intro b hmem
  exact host_loop_dispatched H E cmds h cmd b hmem hunclaimed

/-- Witness for C7: the sample host reading `x`, `y`, `x`, `q` with the sample extension,
which does not claim `y`. -/
theorem host_loop_never_dispatches_unclaimed_witness :
    sampleExtension.has_command_ext "y" = 0 ∧
    (∀ active_branch : Bool, Event.dispatched "y" active_branch ∉
      host_loop sampleHost sampleExtension ["x", "y", "x", "q"] ⟨"", "", "", ()⟩) ∧
    Event.dispatched "x" true ∈
      host_loop sampleHost sampleExtension ["x", "y", "x", "q"] ⟨"", "", "", ()⟩ :=
  ⟨by decide,
   host_loop_never_dispatches_unclaimed sampleHost sampleExtension ["x", "y", "x", "q"]
     ⟨"", "", "", ()⟩ "y" (by decide),
   by decide⟩

end Psqlx
